import Mathlib

/-!
# Verification of the Lego Train Controller (Arduino Yun)

Shallow embedding of `src/lego-train-controller-arduino-yun.ino`:
the path tokenizer, the command dispatcher `process_request_by_char`,
the IR repeat queue, the signal/switch/barrier actuation functions and
the position-sensor poller, together with proofs of the specified
properties.

Modelling conventions:
* C strings are modelled as memories `Nat → Nat` of byte values; the
  bytes of a `List Nat` are laid out from address 0 and every address
  past the end reads 0 (the C terminator).
* `unsigned char` arithmetic is `% 256` (`u8`); the AVR 16-bit `int`
  returned by `atoi` is modelled by `wrap16`.
* Hardware calls (servo writes, IR transmissions, MQTT publishes) are
  recorded as events so that "no servo is driven" is a statement about
  the event trace.
-/

namespace LegoTrain

/-- Byte values of a string literal (ASCII codes). -/
def codes (s : String) : List Nat := s.data.map Char.toNat

/-- A C string as a byte memory: bytes of `L` from address 0, then zeros
(the null terminator and anything past it). -/
def strMem (L : List Nat) (k : Nat) : Nat := L.getD k 0

/-- Truncation to `unsigned char` (the C conversion `unsigned char x = e;`). -/
def u8 (v : Int) : Nat := (v % 256).toNat

/-- Wrap to the AVR 16-bit signed `int` range (avr-libc `atoi` wraps on
overflow). -/
def wrap16 (v : Int) : Int := (v + 32768) % 65536 - 32768

/-- C `isspace` on a byte. -/
def isSpaceByte (c : Nat) : Bool := c = 32 || (9 ≤ c && c ≤ 13)

/-- C `isdigit` on a byte. -/
def isDigitByte (c : Nat) : Bool := 48 ≤ c && c ≤ 57

/-- Digit accumulation loop of C `atoi`: consume leading digits,
accumulating left-to-right; stop at the first non-digit. -/
def atoiDigits : List Nat → Int → Int
  | [], acc => acc
  | c :: cs, acc =>
    if isDigitByte c then atoiDigits cs (acc * 10 + ((c : Int) - 48)) else acc

/-- Skip leading whitespace, as C `atoi` does. -/
def skipSpaces : List Nat → List Nat
  | [] => []
  | c :: cs => if isSpaceByte c then skipSpaces cs else c :: cs

/-- Mathematical value parsed by C `atoi` (before 16-bit wrap): optional
whitespace, optional sign, then a maximal digit run; no digits parse to 0. -/
def atoiZ (t : List Nat) : Int :=
  match skipSpaces t with
  | [] => 0
  | c :: cs =>
    if c = 45 then - atoiDigits cs 0
    else if c = 43 then atoiDigits cs 0
    else atoiDigits (c :: cs) 0

/-- C `atoi` on AVR: parsed value wrapped to 16-bit `int`. -/
def atoi (t : List Nat) : Int := wrap16 (atoiZ t)

/-! ## The path tokenizer (`get_char_until_next_slash`)

```c
void get_char_until_next_slash(char *str, char *buf, unsigned char &i){
  unsigned char j = 0;
  while(str[i] != 0 && i < MAX_BUFFER_SIZE){
    if (str[i] != 47){ buf[j++] = str[i]; i++; }
    else { i++; break; }
  }
  buf[j] = 0;
}
```

The loop increases `i` on every iteration and stops once `i ≥ 255`, so
`255 - i` is an exact fuel: fuel 0 coincides with the guard `i < 255`
being false. `gcunsAux` returns the writes `(index, value)` made to
`buf` inside the loop, the final `i` and the final `j`. -/

/-- `MAX_BUFFER_SIZE` from the source. -/
def MAX_BUFFER_SIZE : Nat := 255

/-- Loop body of `get_char_until_next_slash`; `fuel` is `255 - i`. -/
def gcunsAux (str : Nat → Nat) : Nat → Nat → Nat → List (Nat × Nat) × Nat × Nat
  | 0, i, j => ([], i, j)
  | fuel + 1, i, j =>
    if str i ≠ 0 ∧ i < MAX_BUFFER_SIZE then
      if str i = 47 then ([], i + 1, j)
      else
        let r := gcunsAux str fuel (i + 1) (j + 1)
        ((j, str i) :: r.1, r.2)
    else ([], i, j)

/-- `get_char_until_next_slash`, write-trace view: all writes made to the
destination buffer (loop writes plus the terminating null), and the final
cursor. -/
def get_char_until_next_slash (str : Nat → Nat) (i : Nat) :
    List (Nat × Nat) × Nat :=
  let r := gcunsAux str (MAX_BUFFER_SIZE - i) i 0
  (r.1 ++ [(r.2.2, 0)], r.2.1)

/-- `get_char_until_next_slash`, token view: the extracted token (the
contents of `buf` up to the terminator) and the advanced cursor. -/
def nextToken (str : Nat → Nat) (i : Nat) : List Nat × Nat :=
  let r := gcunsAux str (MAX_BUFFER_SIZE - i) i 0
  (r.1.map Prod.snd, r.2.1)

/-! ## Registry constants from the source -/

/-- `const int NUM_LEGO_PF = 2;` (number of Power-Function IR LEDs driven
per queue tick). -/
def NUM_LEGO_PF : Nat := 2

/-- `const unsigned char NUM_POSITION_SENSORS = 2;` -/
def NUM_POSITION_SENSORS : Nat := 2

/-- `const unsigned char SERVO_SWITCH_MIN_ANGLE = 68;` -/
def SERVO_SWITCH_MIN_ANGLE : Nat := 68

/-- `const unsigned char SERVO_SWITCH_MAX_ANGLE = 85;` -/
def SERVO_SWITCH_MAX_ANGLE : Nat := 85

/-- `const unsigned char SERVO_SWITCH_ANGLES[2] = {min, max};` -/
def SERVO_SWITCH_ANGLES : List Nat := [SERVO_SWITCH_MIN_ANGLE, SERVO_SWITCH_MAX_ANGLE]

/-- `const unsigned char NUM_SERVO_SWITCHES = 4;` -/
def NUM_SERVO_SWITCHES : Nat := 4

/-- `const unsigned char SERVO_BARRIER_MIN_ANGLE = 30;` -/
def SERVO_BARRIER_MIN_ANGLE : Nat := 30

/-- `const unsigned char SERVO_BARRIER_MAX_ANGLE = 128;` -/
def SERVO_BARRIER_MAX_ANGLE : Nat := 128

/-- `const unsigned char SERVO_BARRIER_ANGLES[2] = {min, max};` -/
def SERVO_BARRIER_ANGLES : List Nat := [SERVO_BARRIER_MIN_ANGLE, SERVO_BARRIER_MAX_ANGLE]

/-- `const unsigned char NUM_SERVO_BARRIERS = 4;` -/
def NUM_SERVO_BARRIERS : Nat := 4

/-- `const unsigned char NUM_SIGNALS = 2;` (each signal has 2 lamp pins). -/
def NUM_SIGNALS : Nat := 2

/-- Modelled from the spec: the Power-Functions encoding constants
(`PWM`, `PWM_FLT`, `PWM_FWD1..7`, `PWM_REV1..7`) come from the bundled
`legopowerfunctions.h` header, which is not among the provided source
files.  The spec only requires a forward table and a reverse table
indexed 0–7 with index 0 the float/neutral encoding; the concrete
values used here are those of the referenced Arduino-PowerFunctions
library (single-output PWM mode `0x4`, forward step `n ↦ n`, reverse
step `n ↦ 16 - n`, float `0`).  No claim depends on these numeric
values, only on which table is consulted at which index. -/
def PWM : Nat := 4

/-- `const int fwdSpeed[8] = {PWM_FLT, PWM_FWD1, ..., PWM_FWD7};`
(library values, see `PWM`). -/
def fwdSpeed : List Nat := [0, 1, 2, 3, 4, 5, 6, 7]

/-- `const int revSpeed[8] = {PWM_FLT, PWM_REV1, ..., PWM_REV7};`
(library values, see `PWM`). -/
def revSpeed : List Nat := [0, 15, 14, 13, 12, 11, 10, 9]

/-! Byte lists of the literal tokens compared by the dispatcher. -/

/-- `const char* LEGO = "lego";` -/
def LEGO : List Nat := codes "lego"

/-- `const char* TRAIN = "train";` -/
def TRAIN : List Nat := codes "train"

/-- `const char* CONFIG = "config";` -/
def CONFIG : List Nat := codes "config"

/-- `const char* MOTOR = "motor";` -/
def MOTOR : List Nat := codes "motor"

/-- `const char* PF = "pf";` -/
def PF : List Nat := codes "pf"

/-- `const char* SIGNAL = "signal";` -/
def SIGNAL : List Nat := codes "signal"

/-- `const char* SWITCH = "switch";` -/
def SWITCH : List Nat := codes "switch"

/-- `const char* BARRIER = "barrier";` -/
def BARRIER : List Nat := codes "barrier"

/-! ## Controller state -/

/-- The IR repeat queue.  The source declares `unsigned char queue[4]`
but both the load site (`queue[0] = 5; queue[1] = PWM; queue[2] = VA;
queue[3] = CO; queue[4] = CH;`) and the drain site
(`SingleOutput(queue[1], queue[2], queue[3], queue[4])`) use five cells:
index 4 is written and read one past the declared array (an
out-of-bounds access in C).  The model carries the five cells the code
actually uses, in declaration order: repetitions, transmission mode,
encoded speed step, output side, channel. -/
structure Queue where
  rep : Nat
  mode : Nat
  value : Nat
  output : Nat
  channel : Nat
deriving DecidableEq

/-- Hardware side effects recorded by the dispatcher: a servo write
(`servo_switch[i].write(a)` when `isSwitch`, else
`servo_barrier[i].write(a)`). -/
inductive Ev where
  | servo (isSwitch : Bool) (idx : Nat) (angle : Nat)
deriving DecidableEq

/-- One IR transmission `lego_pf[led].SingleOutput(mode, step, output
, channel)` issued by a queue tick. -/
structure IRCall where
  led : Nat
  mode : Nat
  value : Nat
  output : Nat
  channel : Nat
deriving DecidableEq

/-- Mutable controller state: the IR queue, the commanded switch and
barrier angles, the signal lamp levels (index `2*s + j` holds lamp `j`
of signal `s`; `true` = pin driven LOW = lamp lit), and the last
observed position-sensor values. -/
structure St where
  queue : Queue
  switches : List Nat
  barriers : List Nat
  signals : List Bool
  sensors : List Nat
deriving DecidableEq

/-- Result of `process_request_by_char`: the returned `isok` flag, the
by-reference `send_json_configuration` flag, the mutated state and the
servo events driven while dispatching. -/
structure DispatchResult where
  isok : Bool
  sendConfig : Bool
  st : St
  evs : List Ev
deriving DecidableEq

/-! ## Actuation functions -/

/-- `set_signal(s, l, v)`: for each lamp `j` of signal `s`, drive its pin
LOW (lit) when `v == (j == l)`, else HIGH (off). -/
def set_signal (st : St) (s l : Nat) (v : Bool) : St :=
  { st with
    signals :=
      (st.signals.set (2 * s) (v == decide ((0 : Nat) = l))).set
        (2 * s + 1) (v == decide ((1 : Nat) = l)) }

/-- `set_switch(i, a)` / `set_servo(true, i, a)`: record the commanded
angle of switch `i`. -/
def set_switch (st : St) (i a : Nat) : St :=
  { st with switches := st.switches.set i a }

/-- `set_barrier(i, a)` / `set_servo(false, i, a)`: record the commanded
angle of barrier `i`. -/
def set_barrier (st : St) (i a : Nat) : St :=
  { st with barriers := st.barriers.set i a }

/-- `switch_off(i)`: drive switch `i` to `SERVO_SWITCH_ANGLES[0]`. -/
def switch_off (st : St) (i : Nat) : St :=
  set_switch st i (SERVO_SWITCH_ANGLES.getD 0 0)

/-- `barrier_off(i)`: drive barrier `i` to `SERVO_BARRIER_ANGLES[0]`. -/
def barrier_off (st : St) (i : Nat) : St :=
  set_barrier st i (SERVO_BARRIER_ANGLES.getD 0 0)

/-! ## Initialization (`setup()`) -/

/-- `init_servo_switches()`: attach and `switch_off` every switch. -/
def init_servo_switches (st : St) : St :=
  (List.range NUM_SERVO_SWITCHES).foldl switch_off st

/-- `init_servo_barriers()`: attach and `barrier_off` every barrier. -/
def init_servo_barriers (st : St) : St :=
  (List.range NUM_SERVO_BARRIERS).foldl barrier_off st

/-- Body of the `init_signals()` loop for one signal: `set_signal(i, 0,
true)` then `set_signal(i, 1, false)`. -/
def init_signals_one (st : St) (i : Nat) : St :=
  set_signal (set_signal st i 0 true) i 1 false

/-- `init_signals()`. -/
def init_signals (st : St) : St :=
  (List.range NUM_SIGNALS).foldl init_signals_one st

/-- Global state before `setup()` runs: zero-initialized queue
(`unsigned char queue[4] = {}`), unknown servo positions (modelled 0),
all lamp pins at their reset level (not driven low, so unlit), and the
position-sensor sentinel `{2, 2}` (`unsigned char
position_sensor[NUM_POSITION_SENSORS] = {2, 2};`). -/
def st0 : St :=
  { queue := ⟨0, 0, 0, 0, 0⟩
    switches := [0, 0, 0, 0]
    barriers := [0, 0, 0, 0]
    signals := [false, false, false, false]
    sensors := [2, 2] }

/-- State after `setup()` (the parts of `setup()` that touch modelled
state: `init_servo_switches`, `init_servo_barriers`, `init_signals`). -/
def initSt : St :=
  init_signals (init_servo_barriers (init_servo_switches st0))

/-! ## The dispatcher (`process_request_by_char`) -/

/-- The `LEGO - TRAIN - MOTOR` section of `process_request_by_char`,
entered with the cursor `i` positioned after the `motor` token.  Table
reads that would be out of bounds in C (`fwdSpeed[VA]` for `VA > 7`,
`revSpeed[-VA]` for `VA < -7`) are undefined behaviour there and are
modelled with default 0. -/
def motor_branch (req : Nat → Nat) (i : Nat) (st : St) : DispatchResult :=
  let r4 := nextToken req i
  if r4.1 = PF then
    let r5 := nextToken req r4.2
    let CH : Nat := u8 (atoi r5.1)
    let r6 := nextToken req r5.2
    let CO : Nat := u8 (atoi r6.1)
    let r7 := nextToken req r6.2
    let VA : Int := atoi r7.1
    let VAres : Int :=
      if 0 ≤ VA then (fwdSpeed.getD VA.toNat 0 : Nat)
      else (revSpeed.getD (-VA).toNat 0 : Nat)
    ⟨true, false,
      { st with queue := ⟨5, PWM, u8 VAres, CO, CH⟩ }, []⟩
  else ⟨false, false, st, []⟩

/-- The `LEGO - TRAIN - SIGNAL` section of `process_request_by_char`. -/
def signal_branch (req : Nat → Nat) (i : Nat) (st : St) : DispatchResult :=
  let r4 := nextToken req i
  let Sig : Nat := u8 (atoi r4.1)
  if Sig < NUM_SIGNALS then
    let r5 := nextToken req r4.2
    let Light : Nat := u8 (atoi r5.1)
    if Light < 2 then
      let r6 := nextToken req r5.2
      let Value : Nat := u8 (atoi r6.1)
      if Value ≤ 1 then
        ⟨true, false, set_signal st Sig Light (Value == 1), []⟩
      else ⟨true, false, st, []⟩
    else ⟨true, false, st, []⟩
  else ⟨true, false, st, []⟩

/-- The `LEGO - TRAIN - SWITCH` section of `process_request_by_char`. -/
def switch_branch (req : Nat → Nat) (i : Nat) (st : St) : DispatchResult :=
  let r4 := nextToken req i
  let s : Nat := u8 (atoi r4.1)
  let r5 := nextToken req r4.2
  let a : Nat := u8 (atoi r5.1)
  if s < NUM_SERVO_SWITCHES ∧ a < 2 then
    let ang := SERVO_SWITCH_ANGLES.getD a 0
    ⟨true, false, set_switch st s ang, [.servo true s ang]⟩
  else ⟨true, false, st, []⟩

/-- The `LEGO - TRAIN - BARRIER` section of `process_request_by_char`. -/
def barrier_branch (req : Nat → Nat) (i : Nat) (st : St) : DispatchResult :=
  let r4 := nextToken req i
  let b : Nat := u8 (atoi r4.1)
  let r5 := nextToken req r4.2
  let a : Nat := u8 (atoi r5.1)
  if b < NUM_SERVO_BARRIERS ∧ a < 2 then
    let ang := SERVO_BARRIER_ANGLES.getD a 0
    ⟨true, false, set_barrier st b ang, [.servo false b ang]⟩
  else ⟨true, false, st, []⟩

/-- `process_request_by_char(request, send_json_configuration)`:
tokenize the request with a caller-held cursor and interpret it against
the grammar, mutating actuator state.  Mirrors the source control flow
branch for branch; its `LEGO - TRAIN - *` sections are split into the
`*_branch` functions above. -/
def process_request_by_char (req : Nat → Nat) (st : St) : DispatchResult :=
  let r1 := nextToken req 0
  if r1.1 = LEGO then
    let r2 := nextToken req r1.2
    if r2.1 = TRAIN then
      let r3 := nextToken req r2.2
      if r3.1 = CONFIG then
        ⟨true, true, st, []⟩
      else if r3.1 = MOTOR then motor_branch req r3.2 st
      else if r3.1 = SIGNAL then signal_branch req r3.2 st
      else if r3.1 = SWITCH then switch_branch req r3.2 st
      else if r3.1 = BARRIER then barrier_branch req r3.2 st
      else ⟨false, false, st, []⟩
    else ⟨false, false, st, []⟩
  else ⟨false, false, st, []⟩

/-- Request memory for a string literal. -/
def reqStr (s : String) : Nat → Nat := strMem (codes s)

/-- State reached by dispatching a list of requests in order. -/
def run (cmds : List (Nat → Nat)) (st : St) : St :=
  cmds.foldl (fun s req => (process_request_by_char req s).st) st

/-! ## The IR repeat queue tick (`update_pf_ir_queue`) -/

/-- `update_pf_ir_queue()`: if repetitions remain, transmit the stored
command on every configured IR LED once and decrement the count. -/
def update_pf_ir_queue (st : St) : St × List IRCall :=
  if st.queue.rep > 0 then
    ({ st with queue := { st.queue with rep := st.queue.rep - 1 } },
     (List.range NUM_LEGO_PF).map fun i =>
       ⟨i, st.queue.mode, st.queue.value, st.queue.output, st.queue.channel⟩)
  else (st, [])

/-- State after `k` controller ticks of the IR queue. -/
def tickN : Nat → St → St
  | 0, st => st
  | k + 1, st => (update_pf_ir_queue (tickN k st)).1

/-- IR transmissions issued by the tick following state `st`. -/
def tickCalls (st : St) : List IRCall := (update_pf_ir_queue st).2

/-! ## The position-sensor poller (`update_position_sensors`) -/

/-- Inversion performed by the poller: `v = ((v+1)%2)` on the raw
`digitalRead` level (`true` = HIGH = 1). -/
def invRead (raw : Bool) : Nat := ((if raw then 1 else 0) + 1) % 2

/-- Loop of `update_position_sensors()` from sensor index `i`: read each
pin, invert, and on a change store the new value and publish
`(sensor id, value)`. -/
def upsAux (i : Nat) : List Bool → List Nat → List Nat × List (Nat × Nat)
  | _, [] => ([], [])
  | [], cur => (cur, [])
  | raw :: raws, c :: cs =>
    let v := invRead raw
    let r := upsAux (i + 1) raws cs
    if v ≠ c then (v :: r.1, (i, v) :: r.2) else (c :: r.1, r.2)

/-- `update_position_sensors()`: new sensor values and the MQTT change
notifications published, given the raw pin levels read this tick. -/
def update_position_sensors (raws : List Bool) (sensors : List Nat) :
    List Nat × List (Nat × Nat) :=
  upsAux 0 raws sensors

end LegoTrain

namespace LegoTrain

/-! ## Tokenizer correctness lemmas -/

/-- A well-formed token: no terminator and no slash among its bytes. -/
def tokOk (t : List Nat) : Prop := ∀ c ∈ t, c ≠ 0 ∧ c ≠ 47

instance (t : List Nat) : Decidable (tokOk t) := by
  unfold tokOk; infer_instance

/-- Writes of the tokenizer loop for token bytes `t` starting at buffer
index `j`. -/
def writesFrom (j : Nat) : List Nat → List (Nat × Nat)
  | [] => []
  | c :: cs => (j, c) :: writesFrom (j + 1) cs

theorem writesFrom_snd (t : List Nat) : ∀ j, (writesFrom j t).map Prod.snd = t := by
  induction t with
  | nil => intro j; rfl
  | cons c cs ih => intro j; simp [writesFrom, ih]

theorem writesFrom_append (t₁ t₂ : List Nat) :
    ∀ j, writesFrom j (t₁ ++ t₂) = writesFrom j t₁ ++ writesFrom (j + t₁.length) t₂ := by
  induction t₁ with
  | nil => intro j; simp [writesFrom]
  | cons c cs ih =>
    intro j
    simp only [List.cons_append, writesFrom, List.length_cons]
    rw [show cs.append t₂ = cs ++ t₂ from rfl, ih (j + 1),
      show j + 1 + cs.length = j + (cs.length + 1) from by omega]

/-- The tokenizer loop on a slash-terminated token: consumes the token
bytes and the slash, writing the bytes at indices `j, j+1, …`. -/
theorem gcunsAux_slash (t : List Nat) : ∀ (req : Nat → Nat) (i j : Nat),
    (∀ k, k < t.length → req (i + k) = t.getD k 0) →
    tokOk t →
    i + t.length < MAX_BUFFER_SIZE →
    req (i + t.length) = 47 →
    gcunsAux req (MAX_BUFFER_SIZE - i) i j =
      (writesFrom j t, i + t.length + 1, j + t.length) := by
  induction t with
  | nil =>
    intro req i j _ _ hlen hterm
    simp only [List.length_nil, Nat.add_zero] at hlen hterm
    have hfuel : MAX_BUFFER_SIZE - i = (MAX_BUFFER_SIZE - i - 1) + 1 := by
      unfold MAX_BUFFER_SIZE at *; omega
    rw [hfuel]
    simp [gcunsAux, hterm, hlen, writesFrom]
  | cons c cs ih =>
    intro req i j hpt htok hlen hterm
    have hc : req i = c := by
      have := hpt 0 (by simp)
      simpa using this
    have hcok : c ≠ 0 ∧ c ≠ 47 := htok c (by simp)
    have hi : i < MAX_BUFFER_SIZE := by
      simp only [List.length_cons] at hlen; omega
    have hfuel : MAX_BUFFER_SIZE - i = (MAX_BUFFER_SIZE - (i + 1)) + 1 := by omega
    rw [hfuel]
    have hrec := ih req (i + 1) (j + 1)
      (by
        intro k hk
        have := hpt (k + 1) (by simp only [List.length_cons]; omega)
        have harith : i + (k + 1) = i + 1 + k := by omega
        rw [harith] at this
        simpa using this)
      (fun c' hc' => htok c' (by simp [hc']))
      (by simp only [List.length_cons] at hlen; omega)
      (by
        have harith : i + 1 + cs.length = i + (c :: cs).length := by
          simp only [List.length_cons]; omega
        rw [harith]; exact hterm)
    simp only [gcunsAux, hc, hcok.1, hi, hcok.2, ne_eq, not_false_iff, and_true,
      if_true, if_neg hcok.2, if_pos (And.intro hcok.1 hi)]
    rw [hrec]
    simp only [writesFrom, List.length_cons, if_neg not_false, Prod.mk.injEq]
    exact ⟨trivial, by omega, by omega⟩

/-- The tokenizer loop on the final token: stops at the terminator (or
at the cursor bound `MAX_BUFFER_SIZE`) without consuming it. -/
theorem gcunsAux_end (t : List Nat) : ∀ (req : Nat → Nat) (i j : Nat),
    (∀ k, k < t.length → req (i + k) = t.getD k 0) →
    tokOk t →
    i + t.length ≤ MAX_BUFFER_SIZE →
    (req (i + t.length) = 0 ∨ i + t.length = MAX_BUFFER_SIZE) →
    gcunsAux req (MAX_BUFFER_SIZE - i) i j =
      (writesFrom j t, i + t.length, j + t.length) := by
  induction t with
  | nil =>
    intro req i j _ _ hlen hterm
    simp only [List.length_nil, Nat.add_zero] at hlen hterm
    rcases hterm with h0 | h255
    · rcases Nat.lt_or_ge i MAX_BUFFER_SIZE with hi | hi
      · have hfuel : MAX_BUFFER_SIZE - i = (MAX_BUFFER_SIZE - i - 1) + 1 := by omega
        rw [hfuel]
        simp [gcunsAux, h0, writesFrom]
      · have hfuel : MAX_BUFFER_SIZE - i = 0 := by omega
        rw [hfuel]
        simp [gcunsAux, writesFrom]
    · have hfuel : MAX_BUFFER_SIZE - i = 0 := by omega
      rw [hfuel]
      simp [gcunsAux, writesFrom]
  | cons c cs ih =>
    intro req i j hpt htok hlen hterm
    have hc : req i = c := by
      have := hpt 0 (by simp)
      simpa using this
    have hcok : c ≠ 0 ∧ c ≠ 47 := htok c (by simp)
    have hi : i < MAX_BUFFER_SIZE := by
      simp only [List.length_cons] at hlen; omega
    have hfuel : MAX_BUFFER_SIZE - i = (MAX_BUFFER_SIZE - (i + 1)) + 1 := by omega
    rw [hfuel]
    have hrec := ih req (i + 1) (j + 1)
      (by
        intro k hk
        have := hpt (k + 1) (by simp only [List.length_cons]; omega)
        have harith : i + (k + 1) = i + 1 + k := by omega
        rw [harith] at this
        simpa using this)
      (fun c' hc' => htok c' (by simp [hc']))
      (by simp only [List.length_cons] at hlen; omega)
      (by
        have harith : i + 1 + cs.length = i + (c :: cs).length := by
          simp only [List.length_cons]; omega
        rw [harith]; exact hterm)
    simp only [gcunsAux, hc, hcok.1, hi, hcok.2, ne_eq, not_false_iff, and_true,
      if_true, if_neg hcok.2, if_pos (And.intro hcok.1 hi)]
    rw [hrec]
    simp only [writesFrom, List.length_cons, if_neg not_false, Prod.mk.injEq]
    exact ⟨trivial, by omega, by omega⟩

/-- Byte `P.length + k` of the memory `P ++ (t ++ R)` is byte `k` of `t`. -/
theorem strMem_pointwise (P t R : List Nat) :
    ∀ k, k < t.length → strMem (P ++ (t ++ R)) (P.length + k) = t.getD k 0 := by
  intro k hk
  unfold strMem
  rw [List.getD_append_right _ _ _ _ (by omega), Nat.add_sub_cancel_left,
    List.getD_append _ _ _ _ hk]

/-- Byte `P.length + t.length` of the memory `P ++ (t ++ R)` is byte 0 of `R`. -/
theorem strMem_after (P t R : List Nat) :
    strMem (P ++ (t ++ R)) (P.length + t.length) = R.getD 0 0 := by
  unfold strMem
  rw [show P ++ (t ++ R) = (P ++ t) ++ R by simp,
    List.getD_append_right _ _ _ _ (by simp), List.length_append,
    Nat.sub_self]

/-- `nextToken` on a slash-delimited token in the middle of a request. -/
theorem nextToken_mid (P t R : List Nat) (ht : tokOk t)
    (hlen : P.length + t.length < MAX_BUFFER_SIZE) :
    nextToken (strMem (P ++ (t ++ 47 :: R))) P.length =
      (t, P.length + t.length + 1) := by
  unfold nextToken
  rw [gcunsAux_slash t _ P.length 0
    (fun k hk => strMem_pointwise P t (47 :: R) k hk) ht hlen
    (by simpa using strMem_after P t (47 :: R))]
  simp [writesFrom_snd]

/-- `nextToken` on the last token of a request. -/
theorem nextToken_last (P t : List Nat) (ht : tokOk t)
    (hlen : P.length + t.length ≤ MAX_BUFFER_SIZE) :
    nextToken (strMem (P ++ t)) P.length = (t, P.length + t.length) := by
  unfold nextToken
  rw [show P ++ t = P ++ (t ++ []) by simp]
  rw [gcunsAux_end t _ P.length 0
    (fun k hk => strMem_pointwise P t [] k hk) ht hlen
    (by
      rcases Nat.lt_or_ge (P.length + t.length) MAX_BUFFER_SIZE with h | h
      · exact Or.inl (by simpa using strMem_after P t [])
      · exact Or.inr (by omega))]
  simp [writesFrom_snd]

/-! ## Request builders and parsing of built requests -/

/-- Bytes of a `lego/train/switch/<id>/<selector>` request with free
id and selector tokens. -/
def switchReqL (tid tsel : List Nat) : List Nat :=
  LEGO ++ 47 :: (TRAIN ++ 47 :: (SWITCH ++ 47 :: (tid ++ 47 :: tsel)))

/-- Bytes of a `lego/train/motor/pf/<channel>/<side>/<speed>` request with
free numeric tokens. -/
def motorReqL (tch tco tva : List Nat) : List Nat :=
  LEGO ++ 47 :: (TRAIN ++ 47 :: (MOTOR ++ 47 ::
    (PF ++ 47 :: (tch ++ 47 :: (tco ++ 47 :: tva)))))

/-- Bytes of a `lego/train/signal/<id>/<light>/<value>` request with
single-digit id, light and value. -/
def signalReqL (id light v : Nat) : List Nat :=
  LEGO ++ 47 :: (TRAIN ++ 47 :: (SIGNAL ++ 47 ::
    ([48 + id] ++ 47 :: ([48 + light] ++ 47 :: [48 + v]))))

/-- `nextToken` step lemma, cursor-normalized form for rewriting: a
token in the middle of a request. -/
theorem nextToken_step (L P t R : List Nat) (i : Nat)
    (hL : L = P ++ (t ++ 47 :: R)) (hi : P.length = i) (ht : tokOk t)
    (hlen : i + t.length < MAX_BUFFER_SIZE) :
    nextToken (strMem L) i = (t, i + t.length + 1) := by
  subst hL
  rw [← hi] at hlen ⊢
  exact nextToken_mid P t R ht hlen

/-- `nextToken` step lemma for the final token of a request. -/
theorem nextToken_stepLast (L P t : List Nat) (i : Nat)
    (hL : L = P ++ t) (hi : P.length = i) (ht : tokOk t)
    (hlen : i + t.length ≤ MAX_BUFFER_SIZE) :
    nextToken (strMem L) i = (t, i + t.length) := by
  subst hL
  rw [← hi] at hlen ⊢
  exact nextToken_last P t ht hlen

/-- Dispatching a built switch request: both numeric tokens are parsed,
and the servo is driven exactly when both the truncated id and the
truncated selector pass the range check. -/
theorem dispatch_switch (st : St) (tid tsel : List Nat)
    (hid : tokOk tid) (hsel : tokOk tsel)
    (hb : tid.length + tsel.length ≤ 200) :
    process_request_by_char (strMem (switchReqL tid tsel)) st =
      (if u8 (atoi tid) < NUM_SERVO_SWITCHES ∧ u8 (atoi tsel) < 2 then
        ⟨true, false,
          set_switch st (u8 (atoi tid)) (SERVO_SWITCH_ANGLES.getD (u8 (atoi tsel)) 0),
          [.servo true (u8 (atoi tid)) (SERVO_SWITCH_ANGLES.getD (u8 (atoi tsel)) 0)]⟩
      else ⟨true, false, st, []⟩) := by
  have h1 : nextToken (strMem (switchReqL tid tsel)) 0 = (LEGO, 5) :=
    nextToken_step _ [] LEGO (TRAIN ++ 47 :: (SWITCH ++ 47 :: (tid ++ 47 :: tsel))) 0
      (by simp [switchReqL]) rfl (by decide) (by decide)
  have h2 : nextToken (strMem (switchReqL tid tsel)) 5 = (TRAIN, 11) :=
    nextToken_step _ (LEGO ++ [47]) TRAIN (SWITCH ++ 47 :: (tid ++ 47 :: tsel)) 5
      (by simp [switchReqL]) (by decide) (by decide) (by decide)
  have h3 : nextToken (strMem (switchReqL tid tsel)) 11 = (SWITCH, 18) :=
    nextToken_step _ (LEGO ++ 47 :: (TRAIN ++ [47])) SWITCH (tid ++ 47 :: tsel) 11
      (by simp [switchReqL]) (by decide) (by decide) (by decide)
  have h4 : nextToken (strMem (switchReqL tid tsel)) 18 = (tid, 18 + tid.length + 1) :=
    nextToken_step _ (LEGO ++ 47 :: (TRAIN ++ 47 :: (SWITCH ++ [47]))) tid tsel 18
      (by simp [switchReqL]) (by decide) hid
      (by unfold MAX_BUFFER_SIZE; omega)
  have h5 : nextToken (strMem (switchReqL tid tsel)) (18 + tid.length + 1) =
      (tsel, 18 + tid.length + 1 + tsel.length) :=
    nextToken_stepLast _
      (LEGO ++ 47 :: (TRAIN ++ 47 :: (SWITCH ++ 47 :: (tid ++ [47])))) tsel
      (18 + tid.length + 1)
      (by simp [switchReqL]) (by simp [LEGO, TRAIN, SWITCH, codes]; omega) hsel
      (by unfold MAX_BUFFER_SIZE; omega)
  unfold process_request_by_char switch_branch
  simp +decide only [h1, h2, h3, h4, h5, if_true, if_false]

/-- Dispatching a built motor/pf request: unconditionally accepted, and
the queue cells are overwritten with repeat count 5, the PWM mode, the
table-resolved speed step, the output side and the channel. -/
theorem dispatch_motor (st : St) (tch tco tva : List Nat)
    (hch : tokOk tch) (hco : tokOk tco) (hva : tokOk tva)
    (hb : tch.length + tco.length + tva.length ≤ 200) :
    process_request_by_char (strMem (motorReqL tch tco tva)) st =
      ⟨true, false,
        { st with queue :=
          ⟨5, PWM,
            u8 (if 0 ≤ atoi tva then (fwdSpeed.getD (atoi tva).toNat 0 : Nat)
                else (revSpeed.getD (-(atoi tva)).toNat 0 : Nat)),
            u8 (atoi tco), u8 (atoi tch)⟩ }, []⟩ := by
  have h1 : nextToken (strMem (motorReqL tch tco tva)) 0 = (LEGO, 5) :=
    nextToken_step _ [] LEGO
      (TRAIN ++ 47 :: (MOTOR ++ 47 :: (PF ++ 47 :: (tch ++ 47 :: (tco ++ 47 :: tva))))) 0
      (by simp [motorReqL]) rfl (by decide) (by decide)
  have h2 : nextToken (strMem (motorReqL tch tco tva)) 5 = (TRAIN, 11) :=
    nextToken_step _ (LEGO ++ [47]) TRAIN
      (MOTOR ++ 47 :: (PF ++ 47 :: (tch ++ 47 :: (tco ++ 47 :: tva)))) 5
      (by simp [motorReqL]) (by decide) (by decide) (by decide)
  have h3 : nextToken (strMem (motorReqL tch tco tva)) 11 = (MOTOR, 17) :=
    nextToken_step _ (LEGO ++ 47 :: (TRAIN ++ [47])) MOTOR
      (PF ++ 47 :: (tch ++ 47 :: (tco ++ 47 :: tva))) 11
      (by simp [motorReqL]) (by decide) (by decide) (by decide)
  have h4 : nextToken (strMem (motorReqL tch tco tva)) 17 = (PF, 20) :=
    nextToken_step _ (LEGO ++ 47 :: (TRAIN ++ 47 :: (MOTOR ++ [47]))) PF
      (tch ++ 47 :: (tco ++ 47 :: tva)) 17
      (by simp [motorReqL]) (by decide) (by decide) (by decide)
  have h5 : nextToken (strMem (motorReqL tch tco tva)) 20 =
      (tch, 20 + tch.length + 1) :=
    nextToken_step _ (LEGO ++ 47 :: (TRAIN ++ 47 :: (MOTOR ++ 47 :: (PF ++ [47]))))
      tch (tco ++ 47 :: tva) 20
      (by simp [motorReqL]) (by decide) hch (by unfold MAX_BUFFER_SIZE; omega)
  have h6 : nextToken (strMem (motorReqL tch tco tva)) (20 + tch.length + 1) =
      (tco, 20 + tch.length + 1 + tco.length + 1) :=
    nextToken_step _
      (LEGO ++ 47 :: (TRAIN ++ 47 :: (MOTOR ++ 47 :: (PF ++ 47 :: (tch ++ [47])))))
      tco tva (20 + tch.length + 1)
      (by simp [motorReqL]) (by simp [LEGO, TRAIN, MOTOR, PF, codes]; omega) hco
      (by unfold MAX_BUFFER_SIZE; omega)
  have h7 : nextToken (strMem (motorReqL tch tco tva))
      (20 + tch.length + 1 + tco.length + 1) =
      (tva, 20 + tch.length + 1 + tco.length + 1 + tva.length) :=
    nextToken_stepLast _
      (LEGO ++ 47 :: (TRAIN ++ 47 :: (MOTOR ++ 47 ::
        (PF ++ 47 :: (tch ++ 47 :: (tco ++ [47]))))))
      tva (20 + tch.length + 1 + tco.length + 1)
      (by simp [motorReqL]) (by simp [LEGO, TRAIN, MOTOR, PF, codes]; omega) hva
      (by unfold MAX_BUFFER_SIZE; omega)
  unfold process_request_by_char motor_branch
  simp +decide only [h1, h2, h3, h4, h5, h6, h7, if_true, if_false]

/-! ## IR queue tick lemmas -/

/-- Ticking `k ≤ rep` times only decrements the repeat count; the stored
payload is untouched. -/
theorem tickN_le (st : St) : ∀ k, k ≤ st.queue.rep →
    tickN k st = { st with queue := { st.queue with rep := st.queue.rep - k } } := by
  intro k
  induction k with
  | zero => intro _; simp [tickN]
  | succ k ih =>
    intro hk
    have hrep : 0 < st.queue.rep - k := by omega
    rw [tickN, ih (by omega)]
    unfold update_pf_ir_queue
    simp only [if_pos hrep]
    congr 2

/-- A tick with an empty queue does nothing and transmits nothing. -/
theorem tick_empty (st : St) (h : st.queue.rep = 0) :
    update_pf_ir_queue st = (st, []) := by
  unfold update_pf_ir_queue
  simp [h]

/-- Once the repeat count reaches 0, further ticks leave the state fixed. -/
theorem tickN_stable (st : St) (n : Nat) (hn : (tickN n st).queue.rep = 0) :
    ∀ m, n ≤ m → tickN m st = tickN n st := by
  intro m hm
  induction m with
  | zero => have : n = 0 := by omega
            simp [this]
  | succ m ih =>
    rcases Nat.lt_or_ge n (m + 1) with h | h
    · have hm' : tickN m st = tickN n st := ih (by omega)
      rw [tickN, hm', (tick_empty _ hn)]
    · have : n = m + 1 := by omega
      simp [this]

/-! ## Signal invariant machinery -/

/-- Lamp `j` of signal `s` (true = pin driven LOW = lit). -/
def lampLit (st : St) (s j : Nat) : Bool := st.signals.getD (2 * s + j) false

/-- Exactly one of the two lamps of signal `s` is lit. -/
def sigPairOk (st : St) (s : Nat) : Prop := lampLit st s 0 ≠ lampLit st s 1

instance (st : St) (s : Nat) : Decidable (sigPairOk st s) := by
  unfold sigPairOk; infer_instance

/-- The signal-state well-formedness invariant carried through
reachability: the lamp array has its build-time length and every signal
has exactly one lit lamp. -/
def SigInv (st : St) : Prop :=
  st.signals.length = 2 * NUM_SIGNALS ∧ ∀ s, s < NUM_SIGNALS → sigPairOk st s

instance (st : St) : Decidable (SigInv st) := by
  unfold SigInv; infer_instance

theorem exists_four {α : Type} (l : List α) (h : l.length = 4) :
    ∃ a b c d, l = [a, b, c, d] := by
  rcases l with _ | ⟨a, l⟩; · simp at h
  rcases l with _ | ⟨b, l⟩; · simp at h
  rcases l with _ | ⟨c, l⟩; · simp at h
  rcases l with _ | ⟨d, l⟩; · simp at h
  rcases l with _ | ⟨e, l⟩
  · exact ⟨a, b, c, d, rfl⟩
  · simp at h

/-- `set_signal` with in-range arguments preserves the invariant (and
establishes it for the addressed signal whatever its previous state). -/
theorem set_signal_SigInv (st : St) (hinv : SigInv st) (sg l : Nat) (v : Bool)
    (hsg : sg < NUM_SIGNALS) (hl : l < 2) :
    SigInv (set_signal st sg l v) := by
  obtain ⟨hlen, hpair⟩ := hinv
  obtain ⟨a, b, c, d, habcd⟩ := exists_four st.signals (by simpa [NUM_SIGNALS] using hlen)
  have h0 : sigPairOk st 0 := hpair 0 (by decide)
  have h1 : sigPairOk st 1 := hpair 1 (by decide)
  unfold sigPairOk lampLit at h0 h1
  rw [habcd] at h0 h1
  simp at h0 h1
  constructor
  · unfold set_signal
    simp [habcd, NUM_SIGNALS]
  · intro s hs
    unfold NUM_SIGNALS at hsg hs
    unfold sigPairOk lampLit set_signal
    simp only [habcd]
    interval_cases sg <;> interval_cases l <;> interval_cases s <;>
      cases v <;> simp_all

/-- `SigInv` only looks at the lamp array. -/
theorem SigInv_of_signals_eq {s1 s2 : St} (h : s2.signals = s1.signals)
    (hinv : SigInv s1) : SigInv s2 := by
  unfold SigInv sigPairOk lampLit at *
  rw [h]
  exact hinv

theorem motor_branch_signals (req : Nat → Nat) (i : Nat) (st : St) :
    (motor_branch req i st).st.signals = st.signals := by
  unfold motor_branch
  dsimp only
  split <;> rfl

theorem switch_branch_signals (req : Nat → Nat) (i : Nat) (st : St) :
    (switch_branch req i st).st.signals = st.signals := by
  unfold switch_branch
  dsimp only
  split <;> rfl

theorem barrier_branch_signals (req : Nat → Nat) (i : Nat) (st : St) :
    (barrier_branch req i st).st.signals = st.signals := by
  unfold barrier_branch
  dsimp only
  split <;> rfl

theorem signal_branch_SigInv (req : Nat → Nat) (i : Nat) (st : St)
    (hinv : SigInv st) : SigInv (signal_branch req i st).st := by
  unfold signal_branch
  dsimp only
  repeat' split
  all_goals
    first
      | exact hinv
      | (apply set_signal_SigInv st hinv <;> assumption)

theorem process_SigInv (req : Nat → Nat) (st : St) (hinv : SigInv st) :
    SigInv (process_request_by_char req st).st := by
  unfold process_request_by_char
  dsimp only
  split
  · split
    · split
      · exact hinv
      · split
        · exact SigInv_of_signals_eq (motor_branch_signals _ _ _) hinv
        · split
          · exact signal_branch_SigInv _ _ _ hinv
          · split
            · exact SigInv_of_signals_eq (switch_branch_signals _ _ _) hinv
            · split
              · exact SigInv_of_signals_eq (barrier_branch_signals _ _ _) hinv
              · exact hinv
    · exact hinv
  · exact hinv

theorem run_cons (c : Nat → Nat) (cs : List (Nat → Nat)) (st : St) :
    run (c :: cs) st = run cs ((process_request_by_char c st).st) := rfl

/-- The signal invariant holds in every dispatch-reachable state. -/
theorem run_SigInv (cmds : List (Nat → Nat)) : SigInv (run cmds initSt) := by
  have aux : ∀ (cs : List (Nat → Nat)) (st : St), SigInv st → SigInv (run cs st) := by
    intro cs
    induction cs with
    | nil => intro st h; exact h
    | cons c cs ih =>
      intro st h
      rw [run_cons]
      exact ih _ (process_SigInv c st h)
  exact aux cmds initSt (by decide)

/-- The top-level grammar check mirrored from the dispatcher's branch
conditions: first token `lego`, second `train`, third one of the known
subcommands (with `motor` additionally requiring `pf`). -/
def grammarOk (req : Nat → Nat) : Bool :=
  let r1 := nextToken req 0
  let r2 := nextToken req r1.2
  let r3 := nextToken req r2.2
  decide (r1.1 = LEGO) && decide (r2.1 = TRAIN) &&
    (decide (r3.1 = CONFIG) ||
      (decide (r3.1 = MOTOR) && decide ((nextToken req r3.2).1 = PF)) ||
      decide (r3.1 = SIGNAL) || decide (r3.1 = SWITCH) || decide (r3.1 = BARRIER))

/-! ## Claim theorems -/

/-- **C1.** Dispatching `"lego/train/motor/pf/1/0/7"` loads the single IR
queue slot with channel 1, output side 0, the forward-table encoding of
level 7 and repeat count 5, and after 5 subsequent controller ticks the
queue is empty again; in general, every command whose tokens reach the
`pf` branch overwrites the queue with repeat count 5 and the speed level
resolved through the forward table (speed ≥ 0) or the reverse table at
the absolute value (speed < 0). -/
theorem pf_command_loads_queue (st : St) (tch tco tva : List Nat)
    (hch : tokOk tch) (hco : tokOk tco) (hva : tokOk tva)
    (hb : tch.length + tco.length + tva.length ≤ 200)
    (_hrange : -7 ≤ atoi tva ∧ atoi tva ≤ 7) :
    (process_request_by_char (reqStr "lego/train/motor/pf/1/0/7") initSt =
        ⟨true, false, { initSt with queue := ⟨5, PWM, fwdSpeed.getD 7 0, 0, 1⟩ }, []⟩
      ∧ (tickN 5 (process_request_by_char
          (reqStr "lego/train/motor/pf/1/0/7") initSt).st).queue.rep = 0)
    ∧ process_request_by_char (strMem (motorReqL tch tco tva)) st =
        ⟨true, false,
          { st with queue :=
            ⟨5, PWM,
              u8 (if 0 ≤ atoi tva then (fwdSpeed.getD (atoi tva).toNat 0 : Nat)
                  else (revSpeed.getD (-(atoi tva)).toNat 0 : Nat)),
              u8 (atoi tco), u8 (atoi tch)⟩ }, []⟩ := by
  refine ⟨⟨by decide, by decide⟩, ?_⟩
  exact dispatch_motor st tch tco tva hch hco hva hb

theorem pf_command_loads_queue_witness :
    (-7 ≤ atoi (codes "7") ∧ atoi (codes "7") ≤ 7) ∧
    (process_request_by_char (strMem (motorReqL (codes "1") (codes "0") (codes "7")))
        initSt).st.queue = ⟨5, PWM, fwdSpeed.getD 7 0, 0, 1⟩ := by
  have h := pf_command_loads_queue initSt (codes "1") (codes "0") (codes "7")
    (by decide) (by decide) (by decide) (by decide) ⟨by decide, by decide⟩
  refine ⟨⟨by decide, by decide⟩, ?_⟩
  rw [h.2]
  decide

/-- **C2 counterexample.** The claim "for every switch command whose id
lies outside `[0, switch-count)`, no switch state changes and no servo
is driven" is false on the code: the id is truncated to `unsigned
char`, so id 256 (outside `[0, 4)`) passes the range check as 0 and the
command drives switch 0 to the max angle. -/
theorem switch_id_256_drives_servo :
    initSt.switches = [68, 68, 68, 68]
    ∧ (process_request_by_char (reqStr "lego/train/switch/256/1") initSt).isok = true
    ∧ (process_request_by_char (reqStr "lego/train/switch/256/1") initSt).st.switches
        = [85, 68, 68, 68]
    ∧ (process_request_by_char (reqStr "lego/train/switch/256/1") initSt).evs
        = [.servo true 0 85] := by
  decide

/-- **C2 (amended).** For every switch command
`lego/train/switch/<id>/<selector>` whose id token parses (C `atoi`,
truncated to `unsigned char`, i.e. taken mod 256) to a value outside
`[0, switch-count)`, dispatch returns accepted and no switch state
changes (no servo is driven). -/
theorem switch_id_out_of_range_mod256_ignored (st : St) (tid tsel : List Nat)
    (hid : tokOk tid) (hsel : tokOk tsel) (hb : tid.length + tsel.length ≤ 200)
    (hrange : NUM_SERVO_SWITCHES ≤ u8 (atoi tid)) :
    process_request_by_char (strMem (switchReqL tid tsel)) st =
      ⟨true, false, st, []⟩ := by
  rw [dispatch_switch st tid tsel hid hsel hb, if_neg]
  rintro ⟨h1, -⟩
  simp only [NUM_SERVO_SWITCHES] at h1 hrange
  omega

theorem switch_id_out_of_range_mod256_ignored_witness :
    NUM_SERVO_SWITCHES ≤ u8 (atoi (codes "9")) ∧
    process_request_by_char (strMem (switchReqL (codes "9") (codes "1"))) initSt =
      ⟨true, false, initSt, []⟩ :=
  ⟨by decide, switch_id_out_of_range_mod256_ignored initSt (codes "9") (codes "1")
    (by decide) (by decide) (by decide) (by decide)⟩

/-- **C3.** For every switch command with id in `[0, switch-count)` and
selector in `{0, 1}`, the commanded angle after dispatch is the
registered min angle (selector 0) or max angle (selector 1); in
particular `"lego/train/switch/0/1"` sets switch 0 to the max angle and
a following `"lego/train/switch/0/0"` sets it back to the min angle. -/
theorem switch_in_range_sets_angle (st : St) (id sel : Nat)
    (hid : id < NUM_SERVO_SWITCHES) (hsel : sel < 2)
    (hlen : st.switches.length = 4) :
    ((process_request_by_char (strMem (switchReqL [48 + id] [48 + sel]))
        st).st.switches.getD id 0 =
      if sel = 0 then SERVO_SWITCH_MIN_ANGLE else SERVO_SWITCH_MAX_ANGLE)
    ∧ (run [reqStr "lego/train/switch/0/1"] initSt).switches.getD 0 0
        = SERVO_SWITCH_MAX_ANGLE
    ∧ (run [reqStr "lego/train/switch/0/1", reqStr "lego/train/switch/0/0"]
        initSt).switches.getD 0 0 = SERVO_SWITCH_MIN_ANGLE := by
  refine ⟨?_, by decide, by decide⟩
  obtain ⟨q, sw, ba, sg, se⟩ := st
  obtain ⟨a, b, c, d, hsw⟩ := exists_four sw hlen
  subst hsw
  unfold NUM_SERVO_SWITCHES at hid
  interval_cases id <;> interval_cases sel <;> rfl

theorem switch_in_range_sets_angle_witness :
    initSt.switches.length = 4 ∧
    ((process_request_by_char (strMem (switchReqL [48 + 0] [48 + 1]))
        initSt).st.switches.getD 0 0 =
      if (1 : Nat) = 0 then SERVO_SWITCH_MIN_ANGLE else SERVO_SWITCH_MAX_ANGLE) :=
  ⟨by decide,
    (switch_in_range_sets_angle initSt 0 1 (by decide) (by decide) (by decide)).1⟩

/-- **C4.** In every dispatch-reachable state (after initialization and
after any sequence of dispatched commands) every signal has exactly one
of its two lamps lit; and dispatching a `signal/<id>/<light>/1` command
with in-range id and light succeeds and leaves lamp `light` as the one
lit lamp of signal `id`. -/
theorem signal_exactly_one_lamp (cmds : List (Nat → Nat)) (s id light : Nat)
    (hs : s < NUM_SIGNALS) (hid : id < NUM_SIGNALS) (hlight : light < 2) :
    sigPairOk (run cmds initSt) s
    ∧ ((process_request_by_char (strMem (signalReqL id light 1))
          (run cmds initSt)).isok = true
      ∧ lampLit (process_request_by_char (strMem (signalReqL id light 1))
          (run cmds initSt)).st id light = true
      ∧ lampLit (process_request_by_char (strMem (signalReqL id light 1))
          (run cmds initSt)).st id (1 - light) = false) := by
  have hinv := run_SigInv cmds
  refine ⟨hinv.2 s hs, ?_⟩
  have hlen := hinv.1
  generalize hR : run cmds initSt = R at hlen ⊢
  obtain ⟨q, sw, ba, sg, se⟩ := R
  obtain ⟨a, b, c, d, hsg⟩ := exists_four sg hlen
  subst hsg
  unfold NUM_SIGNALS at hid
  interval_cases id <;> interval_cases light <;> exact ⟨rfl, rfl, rfl⟩

theorem signal_exactly_one_lamp_witness :
    (0 : Nat) < NUM_SIGNALS ∧ sigPairOk (run [] initSt) 0 ∧
    lampLit (process_request_by_char (strMem (signalReqL 0 1 1))
      (run [] initSt)).st 0 1 = true := by
  have h := signal_exactly_one_lamp [] 0 0 1 (by decide) (by decide) (by decide)
  exact ⟨by decide, h.1, h.2.2.1⟩

/-- **C5.** When the IR queue holds repeat count `n > 0`, each of the
next `n` controller ticks broadcasts the stored command exactly once to
every configured IR output channel and decrements the count; after
exactly `n` ticks the queue is empty and no further broadcast occurs. -/
theorem queue_drains_in_rep_ticks (st : St) (n : Nat) (_hn : 0 < n)
    (hrep : st.queue.rep = n) :
    (∀ k, k < n → tickCalls (tickN k st) =
        (List.range NUM_LEGO_PF).map fun i =>
          ⟨i, st.queue.mode, st.queue.value, st.queue.output, st.queue.channel⟩)
    ∧ (tickN n st).queue.rep = 0
    ∧ (∀ m, n ≤ m → tickCalls (tickN m st) = []) := by
  have h2 : (tickN n st).queue.rep = 0 := by
    rw [tickN_le st n (by omega)]
    show st.queue.rep - n = 0
    omega
  refine ⟨?_, h2, ?_⟩
  · intro k hk
    have hq := tickN_le st k (by omega)
    unfold tickCalls update_pf_ir_queue
    rw [hq]
    dsimp only
    rw [if_pos (show 0 < st.queue.rep - k from by omega)]
  · intro m hm
    rw [tickN_stable st n h2 m hm]
    unfold tickCalls
    rw [tick_empty _ h2]

theorem queue_drains_in_rep_ticks_witness :
    ({ initSt with queue := ⟨3, 4, 7, 0, 1⟩ } : St).queue.rep = 3 ∧
    (tickN 3 ({ initSt with queue := ⟨3, 4, 7, 0, 1⟩ } : St)).queue.rep = 0 :=
  ⟨by decide,
    (queue_drains_in_rep_ticks { initSt with queue := ⟨3, 4, 7, 0, 1⟩ } 3
      (by decide) (by decide)).2.1⟩

/-- **C6.** Loading motor command A into the IR queue and then loading
motor command B before any tick leaves the queue holding exactly B's
payload with B's repeat count: the queue after the two loads equals the
queue after loading B alone, and its repeat count is the fixed 5. -/
theorem queue_overwrite_last_wins (st : St) (a1 a2 a3 b1 b2 b3 : List Nat)
    (ha1 : tokOk a1) (ha2 : tokOk a2) (ha3 : tokOk a3)
    (hb1 : tokOk b1) (hb2 : tokOk b2) (hb3 : tokOk b3)
    (hla : a1.length + a2.length + a3.length ≤ 200)
    (hlb : b1.length + b2.length + b3.length ≤ 200)
    (_hra : -7 ≤ atoi a3 ∧ atoi a3 ≤ 7) (_hrb : -7 ≤ atoi b3 ∧ atoi b3 ≤ 7) :
    (process_request_by_char (strMem (motorReqL b1 b2 b3))
        (process_request_by_char (strMem (motorReqL a1 a2 a3)) st).st).st.queue =
      (process_request_by_char (strMem (motorReqL b1 b2 b3)) st).st.queue
    ∧ (process_request_by_char (strMem (motorReqL b1 b2 b3)) st).st.queue.rep = 5 := by
  rw [dispatch_motor st a1 a2 a3 ha1 ha2 ha3 hla,
    dispatch_motor _ b1 b2 b3 hb1 hb2 hb3 hlb,
    dispatch_motor st b1 b2 b3 hb1 hb2 hb3 hlb]
  exact ⟨rfl, rfl⟩

theorem queue_overwrite_last_wins_witness :
    tokOk (codes "2") ∧
    (process_request_by_char (strMem (motorReqL (codes "2") (codes "1") (codes "-3")))
        (process_request_by_char
          (strMem (motorReqL (codes "1") (codes "0") (codes "7"))) initSt).st).st.queue =
      (process_request_by_char
        (strMem (motorReqL (codes "2") (codes "1") (codes "-3"))) initSt).st.queue :=
  ⟨by decide,
    (queue_overwrite_last_wins initSt (codes "1") (codes "0") (codes "7")
      (codes "2") (codes "1") (codes "-3") (by decide) (by decide) (by decide)
      (by decide) (by decide) (by decide) (by decide) (by decide)
      ⟨by decide, by decide⟩ ⟨by decide, by decide⟩).1⟩

set_option maxRecDepth 4000 in
/-- **C7.** On the first poll after initialization (sensor state at the
sentinel 2), every position sensor emits exactly one change
notification whatever the raw pin levels are, carrying the sensor id
and the inverted reading; raw high reads as logical 0 and raw low as
logical 1. -/
theorem first_poll_notifies_every_sensor (r0 r1 : Bool) :
    update_position_sensors [r0, r1] initSt.sensors =
      ([invRead r0, invRead r1], [(0, invRead r0), (1, invRead r1)])
    ∧ invRead true = 0 ∧ invRead false = 1 := by
  cases r0 <;> cases r1 <;> exact ⟨rfl, rfl, rfl⟩

set_option maxRecDepth 40000 in
/-- **C8.** The tokenizer does write at index `MAX_BUFFER_SIZE`: on an
input whose first 255 bytes from the cursor are all non-null, non-slash
(here byte 97, `'a'`), the terminating null is written at buffer index
255 = `MAX_BUFFER_SIZE`, one past the last valid index of the 255-byte
destination buffer — contradicting the claim that no write ever lands
at or past `MAX_BUFFER_SIZE`. -/
theorem tokenizer_writes_terminator_at_buffer_size :
    (MAX_BUFFER_SIZE, 0) ∈ (get_char_until_next_slash (fun _ => 97) 0).1 := by
  decide

/-- **C9.** Every command string whose top-level tokens do not match the
grammar is rejected: accepted is false, no topology document is
requested, the state (switches, barriers, signals, sensors and the IR
queue) is unchanged and no servo is driven. -/
theorem malformed_command_rejected_no_mutation (req : Nat → Nat) (st : St)
    (h : grammarOk req = false) :
    process_request_by_char req st = ⟨false, false, st, []⟩ := by
  unfold grammarOk at h
  unfold process_request_by_char
  dsimp only at h ⊢
  split
  case isFalse h1 => rfl
  case isTrue h1 =>
    split
    case isFalse h2 => rfl
    case isTrue h2 =>
      split
      case isTrue h3 => exact absurd h (by simp [h1, h2, h3])
      case isFalse h3 =>
        split
        case isTrue h4 =>
          unfold motor_branch
          dsimp only
          split
          case isTrue h5 => exact absurd h (by simp [h1, h2, h4, h5])
          case isFalse h5 => rfl
        case isFalse h4 =>
          split
          case isTrue h5 => exact absurd h (by simp [h1, h2, h5])
          case isFalse h5 =>
            split
            case isTrue h6 => exact absurd h (by simp [h1, h2, h6])
            case isFalse h6 =>
              split
              case isTrue h7 => exact absurd h (by simp [h1, h2, h7])
              case isFalse h7 => rfl

theorem malformed_command_rejected_no_mutation_witness :
    grammarOk (reqStr "foo/bar") = false ∧
    process_request_by_char (reqStr "foo/bar") initSt =
      ⟨false, false, initSt, []⟩ :=
  ⟨by decide, malformed_command_rejected_no_mutation (reqStr "foo/bar") initSt (by decide)⟩

/-- **C10.** An in-range `signal/<id>/<light>/0` command does not merely
extinguish lamp `light`: it extinguishes it and lights the opposite
lamp of that signal. -/
theorem signal_value_zero_lights_other_lamp (st : St) (id light : Nat)
    (hid : id < NUM_SIGNALS) (hlight : light < 2)
    (hlen : st.signals.length = 2 * NUM_SIGNALS) :
    (process_request_by_char (strMem (signalReqL id light 0)) st).isok = true
    ∧ lampLit (process_request_by_char (strMem (signalReqL id light 0)) st).st
        id light = false
    ∧ lampLit (process_request_by_char (strMem (signalReqL id light 0)) st).st
        id (1 - light) = true := by
  obtain ⟨q, sw, ba, sg, se⟩ := st
  obtain ⟨a, b, c, d, hsg⟩ := exists_four sg hlen
  subst hsg
  unfold NUM_SIGNALS at hid
  interval_cases id <;> interval_cases light <;> exact ⟨rfl, rfl, rfl⟩

theorem signal_value_zero_lights_other_lamp_witness :
    initSt.signals.length = 2 * NUM_SIGNALS ∧
    lampLit (process_request_by_char (strMem (signalReqL 0 0 0)) initSt).st 0 1 = true :=
  ⟨by decide,
    (signal_value_zero_lights_other_lamp initSt 0 0 (by decide) (by decide)
      (by decide)).2.2⟩

end LegoTrain

-- sanity checks on the embedding (kept as examples, they are theorems too)
example : LegoTrain.nextToken (LegoTrain.strMem (LegoTrain.codes "lego/train")) 0
    = (LegoTrain.codes "lego", 5) := by decide

example : LegoTrain.atoi (LegoTrain.codes "256") = 256 := by decide

example : LegoTrain.atoi (LegoTrain.codes "-7") = -7 := by decide

example : LegoTrain.u8 (LegoTrain.atoi (LegoTrain.codes "256")) = 0 := by decide
